import Mathlib

/-!
Shallow embedding of the openstack-cloudimage-sync pipeline (fetch.go and
glance.go) and verification of its specification claims.

Go channels, goroutines and the wait group are modelled by explicit data:
the outcome a collaborator (resolver, HTTP transport, catalog) would deliver
is an input of the model, and the values a component sends on the images
channel and on the error channel are collected in the result.  The
orchestrator loop, whose behaviour is genuinely concurrent, is modelled by a
labelled transition system over an explicit state.
-/

namespace CloudImageSync

/-- Image (fetch.go): identity and payload of one downloaded image.  The
os.File handle is modelled by the path of the backing temporary file. -/
structure Image where
  Distro : String
  Architecture : String
  Release : String
  File : String
deriving DecidableEq

/-- Result of one ioutil.TempDir(parent, pat) call: a fresh directory under
parent whose name starts with pat.  The field uid captures the operating
system guarantee that every call yields a directory distinct from all
previously created ones.  The environment-dependent failure path of TempDir
(propagated by the constructors) is not modelled. -/
structure TmpDir where
  parent : String
  pat : String
  uid : Nat
deriving DecidableEq

/-- Model of ioutil.TempDir: returns the fresh directory and the next fresh
identifier. -/
def TempDir (parent pat : String) (uid : Nat) : TmpDir × Nat :=
  (⟨parent, pat, uid⟩, uid + 1)

/-- Rendering of the directory path of a TmpDir. -/
def TmpDir.path (d : TmpDir) : String :=
  d.parent ++ "/" ++ d.pat ++ Nat.repr d.uid

/-- BaseImageFetcher (fetch.go lines 67-72); the channel and wait-group
fields are wiring and are modelled by explicit data flow instead. -/
structure BaseImageFetcher where
  ImageBasePath : TmpDir
  Name : String
  Release : String
  Architecture : String
deriving DecidableEq

/-- BaseImageFetcher.GetName (fetch.go lines 78-80): the identity string,
used for logging and as the catalog image name. -/
def BaseImageFetcher.GetName (fetcher : BaseImageFetcher) : String :=
  fetcher.Name ++ "-" ++ fetcher.Release ++ "-" ++ fetcher.Architecture

/-- Constant DebianStableRelease (fetch.go line 139). -/
def DebianStableRelease : String := "current-9"

/-- Constant DebianTestingRelease (fetch.go line 140). -/
def DebianTestingRelease : String := "testing"

/-- Constant DebianBaseOpenstackImagesURL (fetch.go line 141). -/
def DebianBaseOpenstackImagesURL : String := "https://cdimage.debian.org/cdimage/openstack"

/-- Constant UbuntuLatestRelease (fetch.go line 180). -/
def UbuntuLatestRelease : String := "xenial"

/-- DebianReleaseMap (fetch.go line 144), a Go map modelled as an
association list. -/
def DebianReleaseMap : List (String × String) :=
  [(DebianStableRelease, "9"), (DebianTestingRelease, "testing")]

/-- Go map indexing DebianReleaseMap[release]: yields the zero value of the
string type, the empty string, when the key is absent. -/
def debianReleaseMapIndex (release : String) : String :=
  (DebianReleaseMap.lookup release).getD ""

/-- DebianImageFetcher.GetImageURL (fetch.go lines 146-148): a pure
formatting step that always returns a nil error. -/
def DebianImageFetcher.GetImageURL (fetcher : BaseImageFetcher) : Except String String :=
  .ok (DebianBaseOpenstackImagesURL ++ "/" ++ fetcher.Release ++ "/debian-" ++
    debianReleaseMapIndex fetcher.Release ++ "-openstack-" ++
    fetcher.Architecture ++ ".qcow2")

/-- The two concrete ImageFetcher implementations in the source
(DebianImageFetcher at fetch.go line 134, UbuntuImageFetcher at line 173),
each embedding a BaseImageFetcher. -/
inductive ImageFetcher where
  | debian : BaseImageFetcher → ImageFetcher
  | ubuntu : BaseImageFetcher → ImageFetcher
deriving DecidableEq

/-- The embedded BaseImageFetcher of a concrete fetcher. -/
def ImageFetcher.base : ImageFetcher → BaseImageFetcher
  | .debian b => b
  | .ubuntu b => b

/-- GetName lifted to the concrete fetcher types (both inherit the
BaseImageFetcher method). -/
def ImageFetcher.GetName (fetcher : ImageFetcher) : String :=
  fetcher.base.GetName

/-- NewDebianImageFetcher (fetch.go lines 150-171): creates a fresh
temporary directory under basepath, applies the release aliasing (stretch
and latest become current-9, buster becomes testing, anything else is kept),
then builds the fetcher. -/
def NewDebianImageFetcher (release architecture basepath : String) (uid : Nat) :
    ImageFetcher × Nat :=
  let p := TempDir basepath "debian" uid
  let release1 := if release == "stretch" || release == "latest" then DebianStableRelease
    else release
  let release2 := if release1 == "buster" then DebianTestingRelease else release1
  (.debian ⟨p.1, "debian", release2, architecture⟩, p.2)

/-- NewUbuntuImageFetcher (fetch.go lines 217-233): creates a fresh
temporary directory under basepath, maps the empty release and latest to
xenial, keeps anything else, then builds the fetcher. -/
def NewUbuntuImageFetcher (release architecture basepath : String) (uid : Nat) :
    ImageFetcher × Nat :=
  let p := TempDir basepath "ubuntu" uid
  let release1 := if release == "" || release == "latest" then UbuntuLatestRelease
    else release
  (.ubuntu ⟨p.1, "ubuntu", release1, architecture⟩, p.2)

/-- NewImageFetcher (fetch.go lines 235-245): dispatch on the distribution
name; an unsupported name is an error and no fetcher is created. -/
def NewImageFetcher (distro release architecture basepath : String) (uid : Nat) :
    Except String (ImageFetcher × Nat) :=
  if distro = "ubuntu" then .ok (NewUbuntuImageFetcher release architecture basepath uid)
  else if distro = "debian" then .ok (NewDebianImageFetcher release architecture basepath uid)
  else .error ("Not found handler for: " ++ distro)

/-- Release of the configuration surface (config file): the set of
architectures tracked for one release. -/
structure Release where
  Architectures : List String
deriving DecidableEq

/-- DistroSource of the configuration surface; the unused GlanceOptions
field is omitted.  The Go map of releases is modelled as an association
list fixing one iteration order. -/
structure DistroSource where
  Releases : List (String × Release)
deriving DecidableEq

/-- ImageSource of the configuration surface; the unused URLS field is
omitted.  The Go map of distributions is modelled as an association list
fixing one iteration order. -/
structure ImageSource where
  DistroSources : List (String × DistroSource)
deriving DecidableEq

/-- Innermost loop of NewImageFetcherHandler (fetch.go lines 266-272): one
fetcher per architecture, threading the fresh-directory supply; the first
constructor error aborts handler construction. -/
def buildFetchersForArchs (distro release basepath : String) :
    List String → Nat → Except String (List ImageFetcher × Nat)
  | [], uid => .ok ([], uid)
  | arch :: rest, uid =>
    match NewImageFetcher distro release arch basepath uid with
    | .error e => .error e
    | .ok (f, uid1) =>
      match buildFetchersForArchs distro release basepath rest uid1 with
      | .error e => .error e
      | .ok (fs, uid2) => .ok (f :: fs, uid2)

/-- Middle loop of NewImageFetcherHandler (fetch.go lines 265-273): over the
releases of one distribution. -/
def buildFetchersForReleases (distro basepath : String) :
    List (String × Release) → Nat → Except String (List ImageFetcher × Nat)
  | [], uid => .ok ([], uid)
  | (release, releaseConfig) :: rest, uid =>
    match buildFetchersForArchs distro release basepath releaseConfig.Architectures uid with
    | .error e => .error e
    | .ok (fs1, uid1) =>
      match buildFetchersForReleases distro basepath rest uid1 with
      | .error e => .error e
      | .ok (fs2, uid2) => .ok (fs1 ++ fs2, uid2)

/-- Outer loop of NewImageFetcherHandler (fetch.go lines 264-274): over the
configured distributions. -/
def buildFetchersForDistros (basepath : String) :
    List (String × DistroSource) → Nat → Except String (List ImageFetcher × Nat)
  | [], uid => .ok ([], uid)
  | (distro, distroConfig) :: rest, uid =>
    match buildFetchersForReleases distro basepath distroConfig.Releases uid with
    | .error e => .error e
    | .ok (fs1, uid1) =>
      match buildFetchersForDistros basepath rest uid1 with
      | .error e => .error e
      | .ok (fs2, uid2) => .ok (fs1 ++ fs2, uid2)

/-- NewImageFetcherHandler (fetch.go lines 247-277): creates the top-level
temporary directory, then builds the fetcher set from the configuration;
returns the constructed fetchers together with the next fresh identifier. -/
def NewImageFetcherHandler (config : ImageSource) (uid : Nat) :
    Except String (List ImageFetcher × Nat) :=
  let p := TempDir "" "images" uid
  buildFetchersForDistros (TmpDir.path p.1) config.DistroSources p.2

/-- Boolean error test for Except values. -/
def exceptIsError {ε α : Type} : Except ε α → Bool
  | .error _ => true
  | .ok _ => false

/-- Observable effects of one call to GlanceImageUploader.Upload: catalog
submissions (catalog name, disk format, container format, visibility),
reports sent to the error sink, and log lines. -/
structure UploadEffects where
  CatalogSubmissions : List (String × String × String × String)
  ErrorReports : List String
  Logs : List String
deriving DecidableEq

/-- GlanceImageUploader.Upload (glance.go lines 60-95): the whole upload
body — opening the backing file, the CreateImageFromFile call with its
publication options, and every error report — is commented out in the
source, so a call only writes one log line and returns. -/
def GlanceImageUploader.Upload (image : Image) : UploadEffects :=
  ⟨[], [], ["Uploading image:" ++ image.File ++ " to glance"]⟩

/-- Modelled from the spec: the Dedup Filter FilterFetchers is installed in
main (fetch.go line 336, uploader.Uploader.FilterFetchers) but its
definition is missing from the source tree.  Per the spec it queries the
Catalog Client once per Fetcher for an image whose name equals the Fetcher
identity and returns the subset for which no such image exists; the remote
catalog is modelled by the list of its image names. -/
def FilterFetchers (catalog : List String) (fetchers : List ImageFetcher) :
    List ImageFetcher :=
  fetchers.filter (fun f => !(catalog.contains f.GetName))

deriving instance DecidableEq for Except

/-- Environment-determined outcomes for one Fetcher during one cycle of
ImageFetchHandler.Handle (fetch.go lines 286-314): the result of the
GetImageURL call, and the result the spawned Fetch goroutine delivers when
resolution succeeds — exactly one Image on the images channel or exactly
one error on its error channel (fetch.go lines 87-132: every error path
sends one error and returns, the success path sends one image). -/
structure FetcherRun where
  Name : String
  ResolveOutcome : Except String String
  FetchOutcome : Except String Image
deriving DecidableEq

/-- Observable outcome of one Handle cycle: images forwarded to the handoff
channel, reports forwarded to the error sink, and whether the loop executed
the early return of fetch.go lines 294-297. -/
structure BatchResult where
  images : List Image
  errors : List String
  aborted : Bool
deriving DecidableEq

/-- One iteration of the outer loop of ImageFetchHandler.Handle (fetch.go
lines 288-311): the filtered fetchers are walked in order; a GetImageURL
error is reported once and then Handle returns, so the remaining fetchers
are never started; otherwise the spawned fetch task delivers exactly one
image or one forwarded error report. -/
def HandleBatch : List FetcherRun → BatchResult
  | [] => ⟨[], [], false⟩
  | f :: rest =>
    match f.ResolveOutcome with
    | .error e => ⟨[], [f.Name ++ " cannot get image url: " ++ e], true⟩
    | .ok _ =>
      match f.FetchOutcome with
      | .ok image =>
        let r := HandleBatch rest
        ⟨image :: r.images, r.errors, r.aborted⟩
      | .error e =>
        let r := HandleBatch rest
        ⟨r.images, (f.Name ++ " fetcher, cannot fetch image url: " ++ e) :: r.errors, r.aborted⟩

/-- Events observable in an execution of the orchestrator loop: a fetch
task of a batch starting, a fetch task finishing (its goroutine delivered
its image or its error), the batch join (WaitGroup.Wait returning at
fetch.go line 311), and the fixed-interval sleep (fetch.go line 312). -/
inductive FetchEvent where
  | start : Nat → Nat → FetchEvent
  | finish : Nat → Nat → FetchEvent
  | join : Nat → FetchEvent
  | sleep : Nat → FetchEvent
deriving DecidableEq

/-- Program counter of the orchestrator goroutine inside
ImageFetchHandler.Handle: spawning the i-th task of the current batch,
blocked in WaitGroup.Wait, blocked in the inter-cycle timer, or returned
early after a resolution error. -/
inductive OrchPc where
  | spawning : Nat → OrchPc
  | waiting : OrchPc
  | sleeping : OrchPc
  | halted : OrchPc
deriving DecidableEq

/-- State of the orchestrator transition system: current batch number, the
orchestrator program counter, the set of spawned but unfinished fetch tasks
(the WaitGroup content), and the event trace so far. -/
structure OrchState where
  batch : Nat
  pc : OrchPc
  running : List (Nat × Nat)
  trace : List FetchEvent
deriving DecidableEq

/-- Labelled transition system for ImageFetchHandler.Handle (fetch.go lines
286-314).  The parameter n gives the size of the filtered fetcher list of
each batch.  Fetch tasks run concurrently: a taskFinish step is enabled at
any time for any running task, interleaved with the orchestrator steps.
The abortResolve step is the early return on a GetImageURL error, after
which the orchestrator does nothing further; already spawned tasks may
still finish. -/
inductive OrchStep (n : Nat → Nat) : OrchState → OrchState → Prop where
  | spawn (s : OrchState) (i : Nat) :
      s.pc = .spawning i → i < n s.batch →
      OrchStep n s ⟨s.batch, .spawning (i + 1), (s.batch, i) :: s.running,
        s.trace ++ [.start s.batch i]⟩
  | abortResolve (s : OrchState) (i : Nat) :
      s.pc = .spawning i → i < n s.batch →
      OrchStep n s ⟨s.batch, .halted, s.running, s.trace⟩
  | beginWait (s : OrchState) :
      s.pc = .spawning (n s.batch) →
      OrchStep n s ⟨s.batch, .waiting, s.running, s.trace⟩
  | taskFinish (s : OrchState) (b t : Nat) :
      (b, t) ∈ s.running →
      OrchStep n s ⟨s.batch, s.pc, s.running.filter (fun p => decide (p ≠ (b, t))),
        s.trace ++ [.finish b t]⟩
  | batchJoin (s : OrchState) :
      s.pc = .waiting → s.running = [] →
      OrchStep n s ⟨s.batch, .sleeping, [], s.trace ++ [.join s.batch]⟩
  | cycleSleep (s : OrchState) :
      s.pc = .sleeping →
      OrchStep n s ⟨s.batch + 1, .spawning 0, s.running, s.trace ++ [.sleep s.batch]⟩

/-- The state in which Handle begins: batch 0, about to spawn task 0,
nothing running, empty trace. -/
def OrchInit : OrchState := ⟨0, .spawning 0, [], []⟩

/-- Reachability in the orchestrator transition system. -/
def OrchReachable (n : Nat → Nat) (s : OrchState) : Prop :=
  Relation.ReflTransGen (OrchStep n) OrchInit s

/-- The batch-join ordering property of a trace: wherever a task of batch
b+1 starts, every previously started task of batch b has already finished
and the inter-cycle sleep of batch b lies before that start; and every
sleep of batch b is preceded by the join of batch b. -/
def TraceOrdered (l : List FetchEvent) : Prop :=
  (∀ l1 l2 b j, l = l1 ++ FetchEvent.start (b + 1) j :: l2 →
    (∀ i, FetchEvent.start b i ∈ l → FetchEvent.finish b i ∈ l1) ∧
    FetchEvent.sleep b ∈ l1) ∧
  (∀ l1 l2 b, l = l1 ++ FetchEvent.sleep b :: l2 → FetchEvent.join b ∈ l1)

/-- Inductive invariant of the orchestrator transition system: running
tasks belong to the current batch, started batches never exceed the current
one, every strictly earlier batch has slept, every started task is still
running or has finished, a sleeping orchestrator has an empty wait group
and has already joined, and the trace is batch-join ordered. -/
def OrchInv (s : OrchState) : Prop :=
  (∀ p ∈ s.running, p.1 = s.batch) ∧
  (∀ b i, FetchEvent.start b i ∈ s.trace → b ≤ s.batch) ∧
  (∀ b, b < s.batch → FetchEvent.sleep b ∈ s.trace) ∧
  (∀ b i, FetchEvent.start b i ∈ s.trace →
    (b, i) ∈ s.running ∨ FetchEvent.finish b i ∈ s.trace) ∧
  (s.pc = .sleeping → s.running = []) ∧
  (s.pc = .sleeping → FetchEvent.join s.batch ∈ s.trace) ∧
  TraceOrdered s.trace

/-- C6: constructing a Fetcher for (debian, stretch, amd64) resolves the
alias stretch to current-9 at construction time, so its identity is the
catalog name debian-current-9-amd64. -/
theorem debian_stretch_identity_name (basepath : String) (uid : Nat) :
    ((NewDebianImageFetcher "stretch" "amd64" basepath uid).1).GetName =
      "debian-current-9-amd64" := rfl

/-- C7 counterexample: the release jessie is passed through unchanged by
the Debian constructor instead of falling back to the latest stable
release, and it maps to nothing in DebianReleaseMap, so the constructed
release is not a concrete resolvable release tag. -/
theorem unknown_release_alias_not_defaulted :
    ((NewDebianImageFetcher "jessie" "amd64" "/tmp" 0).1).base.Release = "jessie" ∧
    DebianReleaseMap.lookup
      ((NewDebianImageFetcher "jessie" "amd64" "/tmp" 0).1).base.Release = none := by
  exact ⟨rfl, rfl⟩

/-- C7 amended: only the recognized aliases are remapped at construction
time — debian maps stretch and latest to current-9 and buster to testing,
ubuntu maps the empty release and latest to xenial — and every other
release string is passed through unchanged, resolvable or not. -/
theorem release_alias_resolution (release architecture basepath : String) (uid : Nat) :
    ((NewDebianImageFetcher release architecture basepath uid).1).base.Release =
      (if release = "stretch" ∨ release = "latest" then DebianStableRelease
       else if release = "buster" then DebianTestingRelease
       else release) ∧
    ((NewUbuntuImageFetcher release architecture basepath uid).1).base.Release =
      (if release = "" ∨ release = "latest" then UbuntuLatestRelease
       else release) := by
  constructor
  · by_cases h1 : release = "stretch"
    · subst h1; rfl
    · by_cases h2 : release = "latest"
      · subst h2; rfl
      · by_cases h3 : release = "buster"
        · subst h3; rfl
        · simp [NewDebianImageFetcher, TempDir, ImageFetcher.base, h1, h2, h3]
  · by_cases h1 : release = ""
    · subst h1; rfl
    · by_cases h2 : release = "latest"
      · subst h2; rfl
      · simp [NewUbuntuImageFetcher, TempDir, ImageFetcher.base, h1, h2]

/-- C10: Debian URL resolution never fails, and a release outside the
two-entry alias map yields a URL whose version segment is the empty string
rather than an error. -/
theorem debian_get_image_url_total (fetcher : BaseImageFetcher)
    (h : DebianReleaseMap.lookup fetcher.Release = none) :
    (∀ g : BaseImageFetcher, exceptIsError (DebianImageFetcher.GetImageURL g) = false) ∧
    DebianImageFetcher.GetImageURL fetcher =
      .ok (DebianBaseOpenstackImagesURL ++ "/" ++ fetcher.Release ++ "/debian-" ++ "" ++
        "-openstack-" ++ fetcher.Architecture ++ ".qcow2") := by
  refine ⟨fun g => rfl, ?_⟩
  simp [DebianImageFetcher.GetImageURL, debianReleaseMapIndex, h]

/-- C10 witness at the unmapped release jessie. -/
theorem debian_get_image_url_total_witness :
    DebianReleaseMap.lookup
      (BaseImageFetcher.mk ⟨"/tmp", "debian", 0⟩ "debian" "jessie" "amd64").Release = none ∧
    ((∀ g : BaseImageFetcher, exceptIsError (DebianImageFetcher.GetImageURL g) = false) ∧
     DebianImageFetcher.GetImageURL ⟨⟨"/tmp", "debian", 0⟩, "debian", "jessie", "amd64"⟩ =
       .ok (DebianBaseOpenstackImagesURL ++ "/" ++ "jessie" ++ "/debian-" ++ "" ++
         "-openstack-" ++ "amd64" ++ ".qcow2")) :=
  ⟨by decide, debian_get_image_url_total ⟨⟨"/tmp", "debian", 0⟩, "debian", "jessie", "amd64"⟩
    (by decide)⟩

/-- C2: for every Image Descriptor received from the handoff channel, the
upload task submits nothing to the catalog and reports nothing to the error
sink — the whole submission body of GlanceImageUploader.Upload is commented
out — contradicting the specified submit-and-report contract. -/
theorem upload_submits_nothing (image : Image) :
    (GlanceImageUploader.Upload image).CatalogSubmissions = [] ∧
    (GlanceImageUploader.Upload image).ErrorReports = [] :=
  ⟨rfl, rfl⟩

/-- C1: evaluating one Handle cycle on a batch of three fetchers whose
first fails resolution: Handle reports that single error and then returns,
aborting the batch, so the two remaining fetchers never run and produce
neither an image nor a report — contrary to the claimed per-Fetcher
isolation, under which the cycle would end with two images and one error. -/
theorem resolution_error_aborts_whole_batch :
    HandleBatch
      [⟨"debian-current-9-amd64", .error "no matching metadata",
        .ok ⟨"debian", "amd64", "current-9", "/tmp/images0/image1"⟩⟩,
       ⟨"ubuntu-xenial-amd64", .ok "http://a.example/img",
        .ok ⟨"ubuntu", "amd64", "xenial", "/tmp/images0/image2"⟩⟩,
       ⟨"ubuntu-xenial-arm64", .ok "http://b.example/img",
        .ok ⟨"ubuntu", "arm64", "xenial", "/tmp/images0/image3"⟩⟩] =
      ⟨[], ["debian-current-9-amd64 cannot get image url: no matching metadata"], true⟩ := rfl

/-- C4: evaluating one Handle cycle on a two-fetcher batch whose first
fails resolution: the second fetcher, which would have succeeded,
contributes neither an Image Descriptor nor an error report, so the
exactly-one-outcome property fails. -/
theorem fetcher_without_exactly_one_outcome :
    (HandleBatch
      [⟨"debian-current-9-arm64", .error "boom", .error "unused"⟩,
       ⟨"ubuntu-xenial-ppc64el", .ok "http://c.example/img",
        .ok ⟨"ubuntu", "ppc64el", "xenial", "/tmp/images0/image9"⟩⟩]).images = [] ∧
    (HandleBatch
      [⟨"debian-current-9-arm64", .error "boom", .error "unused"⟩,
       ⟨"ubuntu-xenial-ppc64el", .ok "http://c.example/img",
        .ok ⟨"ubuntu", "ppc64el", "xenial", "/tmp/images0/image9"⟩⟩]).errors =
      ["debian-current-9-arm64 cannot get image url: boom"] :=
  ⟨rfl, rfl⟩

/-- When no fetcher in the batch fails resolution, the cycle is not aborted
and every fetcher contributes exactly one output: images and error reports
together number exactly the batch size. -/
theorem handleBatch_exact_outputs_without_resolution_error (runs : List FetcherRun)
    (h : ∀ r ∈ runs, exceptIsError r.ResolveOutcome = false) :
    (HandleBatch runs).images.length + (HandleBatch runs).errors.length = runs.length ∧
    (HandleBatch runs).aborted = false := by
  induction runs with
  | nil => exact ⟨rfl, rfl⟩
  | cons r rest ih =>
    have hr := h r (List.mem_cons_self r rest)
    have hrest := ih (fun x hx => h x (List.mem_cons_of_mem r hx))
    cases hres : r.ResolveOutcome with
    | error e => rw [hres] at hr; exact absurd hr (by simp [exceptIsError])
    | ok u =>
      obtain ⟨hl, hab⟩ := hrest
      cases hfet : r.FetchOutcome with
      | ok image =>
        constructor
        · simp [HandleBatch, hres, hfet]
          omega
        · simp [HandleBatch, hres, hfet, hab]
      | error e =>
        constructor
        · simp [HandleBatch, hres, hfet]
          omega
        · simp [HandleBatch, hres, hfet, hab]

/-- C3: the Dedup Filter returns exactly the fetchers whose identity names
no image in the remote catalog; in particular a catalog that already
contains ubuntu-xenial-amd64 excludes the corresponding fetcher from the
batch. -/
theorem dedup_filter_exact (catalog : List String) (fetchers : List ImageFetcher)
    (f : ImageFetcher) (h : f ∈ fetchers) :
    (f ∈ FilterFetchers catalog fetchers ↔ f.GetName ∉ catalog) ∧
    FilterFetchers ["ubuntu-xenial-amd64"]
      [.ubuntu ⟨⟨"/images0", "ubuntu", 1⟩, "ubuntu", "xenial", "amd64"⟩] = [] := by
  constructor
  · simp [FilterFetchers, List.mem_filter, h]
  · rfl

/-- C3 witness at a singleton fetcher set whose identity the catalog
already contains. -/
theorem dedup_filter_exact_witness :
    (ImageFetcher.ubuntu ⟨⟨"/images0", "ubuntu", 1⟩, "ubuntu", "xenial", "amd64"⟩ ∈
      [ImageFetcher.ubuntu ⟨⟨"/images0", "ubuntu", 1⟩, "ubuntu", "xenial", "amd64"⟩]) ∧
    ((ImageFetcher.ubuntu ⟨⟨"/images0", "ubuntu", 1⟩, "ubuntu", "xenial", "amd64"⟩ ∈
        FilterFetchers ["ubuntu-xenial-amd64"]
          [ImageFetcher.ubuntu ⟨⟨"/images0", "ubuntu", 1⟩, "ubuntu", "xenial", "amd64"⟩] ↔
      (ImageFetcher.ubuntu ⟨⟨"/images0", "ubuntu", 1⟩, "ubuntu", "xenial", "amd64"⟩).GetName ∉
        ["ubuntu-xenial-amd64"]) ∧
     FilterFetchers ["ubuntu-xenial-amd64"]
       [.ubuntu ⟨⟨"/images0", "ubuntu", 1⟩, "ubuntu", "xenial", "amd64"⟩] = []) :=
  ⟨by decide, dedup_filter_exact _ _ _ (by decide)⟩

/-- C8 counterexample: a configuration containing the unknown distribution
fedora, whose entry lists no releases, constructs a handler successfully,
because a fetcher constructor only runs once per configured architecture. -/
theorem unknown_distro_empty_entry_constructs :
    exceptIsError (NewImageFetcherHandler ⟨[("fedora", ⟨[]⟩)]⟩ 0) = false := rfl

/-- Dispatch on an unsupported distribution name is an error and creates
no fetcher. -/
theorem newImageFetcher_unknown_distro {distro : String} (h1 : distro ≠ "ubuntu")
    (h2 : distro ≠ "debian") (release architecture basepath : String) (uid : Nat) :
    NewImageFetcher distro release architecture basepath uid =
      .error ("Not found handler for: " ++ distro) := by
  simp [NewImageFetcher, h1, h2]

/-- The per-architecture loop fails on its first iteration when the
distribution is unknown. -/
theorem buildFetchersForArchs_unknown_error {distro : String} (h1 : distro ≠ "ubuntu")
    (h2 : distro ≠ "debian") (release basepath arch : String) (rest : List String)
    (uid : Nat) :
    buildFetchersForArchs distro release basepath (arch :: rest) uid =
      .error ("Not found handler for: " ++ distro) := by
  simp [buildFetchersForArchs, newImageFetcher_unknown_distro h1 h2]

/-- The per-release loop fails when the distribution is unknown and some
release lists at least one architecture. -/
theorem buildFetchersForReleases_unknown_error {distro : String} (h1 : distro ≠ "ubuntu")
    (h2 : distro ≠ "debian") (basepath : String) (rels : List (String × Release))
    (uid : Nat) (hr : ∃ rl ∈ rels, rl.2.Architectures ≠ []) :
    ∃ e, buildFetchersForReleases distro basepath rels uid = .error e := by
  induction rels generalizing uid with
  | nil => simp at hr
  | cons head rest ih =>
    obtain ⟨rn, rc⟩ := head
    obtain ⟨rl, hm, hne⟩ := hr
    rcases List.mem_cons.mp hm with heq | hmem
    · subst heq
      cases harch : rc.Architectures with
      | nil => exact absurd harch hne
      | cons a as2 =>
        refine ⟨"Not found handler for: " ++ distro, ?_⟩
        simp [buildFetchersForReleases, harch, buildFetchersForArchs_unknown_error h1 h2]
    · cases harch : buildFetchersForArchs distro rn basepath rc.Architectures uid with
      | error e => exact ⟨e, by simp [buildFetchersForReleases, harch]⟩
      | ok p =>
        obtain ⟨e, he⟩ := ih p.2 ⟨rl, hmem, hne⟩
        exact ⟨e, by simp [buildFetchersForReleases, harch, he]⟩

/-- The per-distribution loop fails when some configured distribution is
unknown and has a release with at least one architecture. -/
theorem buildFetchersForDistros_unknown_error (basepath : String)
    (dss : List (String × DistroSource)) (uid : Nat)
    (hd : ∃ entry ∈ dss, entry.1 ≠ "ubuntu" ∧ entry.1 ≠ "debian" ∧
      ∃ rl ∈ entry.2.Releases, rl.2.Architectures ≠ []) :
    ∃ e, buildFetchersForDistros basepath dss uid = .error e := by
  induction dss generalizing uid with
  | nil => simp at hd
  | cons head rest ih =>
    obtain ⟨dn, dc⟩ := head
    obtain ⟨entry, hm, hn1, hn2, hrel⟩ := hd
    rcases List.mem_cons.mp hm with heq | hmem
    · subst heq
      dsimp only at hn1 hn2 hrel
      obtain ⟨e, he⟩ := buildFetchersForReleases_unknown_error hn1 hn2 basepath dc.Releases uid hrel
      exact ⟨e, by simp [buildFetchersForDistros, he]⟩
    · cases hrel2 : buildFetchersForReleases dn basepath dc.Releases uid with
      | error e => exact ⟨e, by simp [buildFetchersForDistros, hrel2]⟩
      | ok p =>
        obtain ⟨e, he⟩ := ih p.2 ⟨entry, hmem, hn1, hn2, hrel⟩
        exact ⟨e, by simp [buildFetchersForDistros, hrel2, he]⟩

/-- C8 amended: an unknown distribution name makes NewImageFetcher fail
with an error and no fetcher is created; handler construction returns an
error for every configuration in which some unknown distribution has at
least one configured release with at least one architecture (an entry with
no architectures never invokes a constructor and so cannot fail). -/
theorem unknown_distro_fails_construction (distro release architecture basepath : String)
    (uid : Nat) (config : ImageSource)
    (h1 : distro ≠ "ubuntu") (h2 : distro ≠ "debian")
    (h3 : ∃ entry ∈ config.DistroSources, entry.1 ≠ "ubuntu" ∧ entry.1 ≠ "debian" ∧
      ∃ rl ∈ entry.2.Releases, rl.2.Architectures ≠ []) :
    NewImageFetcher distro release architecture basepath uid =
      .error ("Not found handler for: " ++ distro) ∧
    exceptIsError (NewImageFetcherHandler config uid) = true := by
  refine ⟨newImageFetcher_unknown_distro h1 h2 release architecture basepath uid, ?_⟩
  obtain ⟨e, he⟩ := buildFetchersForDistros_unknown_error
    (TmpDir.path ⟨"", "images", uid⟩) config.DistroSources (uid + 1) h3
  simp [NewImageFetcherHandler, TempDir, he, exceptIsError]

/-- C8 witness at the distribution fedora with one configured release and
architecture. -/
theorem unknown_distro_fails_construction_witness :
    ("fedora" : String) ≠ "ubuntu" ∧
    (NewImageFetcher "fedora" "rawhide" "x86_64" "/tmp" 0 =
        .error ("Not found handler for: " ++ "fedora") ∧
      exceptIsError (NewImageFetcherHandler
        ⟨[("fedora", ⟨[("rawhide", ⟨["x86_64"]⟩)]⟩)]⟩ 0) = true) :=
  ⟨by decide, unknown_distro_fails_construction "fedora" "rawhide" "x86_64" "/tmp" 0
    ⟨[("fedora", ⟨[("rawhide", ⟨["x86_64"]⟩)]⟩)]⟩ (by decide) (by decide) (by decide)⟩

/-- A successful NewImageFetcher call returns a fetcher whose temporary
directory carries the supplied fresh identifier and advances the supply by
one. -/
theorem newImageFetcher_ok_uid {distro release architecture basepath : String}
    {uid : Nat} {f : ImageFetcher} {uid1 : Nat}
    (h : NewImageFetcher distro release architecture basepath uid = .ok (f, uid1)) :
    f.base.ImageBasePath.uid = uid ∧ uid1 = uid + 1 := by
  by_cases h1 : distro = "ubuntu"
  · simp [NewImageFetcher, h1, NewUbuntuImageFetcher, TempDir] at h
    obtain ⟨hf, hu⟩ := h
    subst hf
    subst hu
    exact ⟨rfl, rfl⟩
  · by_cases h2 : distro = "debian"
    · simp [NewImageFetcher, h1, h2, NewDebianImageFetcher, TempDir] at h
      obtain ⟨hf, hu⟩ := h
      subst hf
      subst hu
      exact ⟨rfl, rfl⟩
    · simp [NewImageFetcher, h1, h2] at h

/-- The per-architecture loop consumes strictly increasing fresh
identifiers: each constructed fetcher takes one from the interval between
the incoming and the returned supply, in strictly increasing order. -/
theorem buildFetchersForArchs_ok_uids {distro release basepath : String}
    {archs : List String} {uid : Nat} {fs : List ImageFetcher} {uid1 : Nat}
    (h : buildFetchersForArchs distro release basepath archs uid = .ok (fs, uid1)) :
    uid ≤ uid1 ∧
    (∀ f ∈ fs, uid ≤ f.base.ImageBasePath.uid ∧ f.base.ImageBasePath.uid < uid1) ∧
    fs.Pairwise (fun f g => f.base.ImageBasePath.uid < g.base.ImageBasePath.uid) := by
  induction archs generalizing uid fs uid1 with
  | nil =>
    simp [buildFetchersForArchs] at h
    obtain ⟨hf, hu⟩ := h
    subst hf
    subst hu
    exact ⟨Nat.le_refl _, by simp, List.Pairwise.nil⟩
  | cons a rest ih =>
    cases hn : NewImageFetcher distro release a basepath uid with
    | error e => simp [buildFetchersForArchs, hn] at h
    | ok p =>
      obtain ⟨f, uidf⟩ := p
      cases hb : buildFetchersForArchs distro release basepath rest uidf with
      | error e => simp [buildFetchersForArchs, hn, hb] at h
      | ok q =>
        obtain ⟨fs0, uid0⟩ := q
        simp [buildFetchersForArchs, hn, hb] at h
        obtain ⟨hfs, hu⟩ := h
        subst hfs
        obtain ⟨hfu, hnext⟩ := newImageFetcher_ok_uid hn
        obtain ⟨hle, hbnd, hpw⟩ := ih hb
        refine ⟨by omega, ?_, ?_⟩
        · intro g hg
          rcases List.mem_cons.mp hg with hgf | hg
          · subst hgf
            omega
          · have := hbnd g hg
            omega
        · exact List.Pairwise.cons (fun g hg => by have := hbnd g hg; omega) hpw

/-- The per-release loop consumes strictly increasing fresh identifiers. -/
theorem buildFetchersForReleases_ok_uids {distro basepath : String}
    {rels : List (String × Release)} {uid : Nat} {fs : List ImageFetcher} {uid1 : Nat}
    (h : buildFetchersForReleases distro basepath rels uid = .ok (fs, uid1)) :
    uid ≤ uid1 ∧
    (∀ f ∈ fs, uid ≤ f.base.ImageBasePath.uid ∧ f.base.ImageBasePath.uid < uid1) ∧
    fs.Pairwise (fun f g => f.base.ImageBasePath.uid < g.base.ImageBasePath.uid) := by
  induction rels generalizing uid fs uid1 with
  | nil =>
    simp [buildFetchersForReleases] at h
    obtain ⟨hf, hu⟩ := h
    subst hf
    subst hu
    exact ⟨Nat.le_refl _, by simp, List.Pairwise.nil⟩
  | cons head rest ih =>
    obtain ⟨rn, rc⟩ := head
    cases ha : buildFetchersForArchs distro rn basepath rc.Architectures uid with
    | error e => simp [buildFetchersForReleases, ha] at h
    | ok p =>
      obtain ⟨fs1, uida⟩ := p
      cases hb : buildFetchersForReleases distro basepath rest uida with
      | error e => simp [buildFetchersForReleases, ha, hb] at h
      | ok q =>
        obtain ⟨fs2, uidb⟩ := q
        simp [buildFetchersForReleases, ha, hb] at h
        obtain ⟨hfs, hu⟩ := h
        subst hfs
        obtain ⟨hle1, hbnd1, hpw1⟩ := buildFetchersForArchs_ok_uids ha
        obtain ⟨hle2, hbnd2, hpw2⟩ := ih hb
        refine ⟨by omega, ?_, ?_⟩
        · intro g hg
          rcases List.mem_append.mp hg with hg | hg
          · have := hbnd1 g hg
            omega
          · have := hbnd2 g hg
            omega
        · refine List.pairwise_append.mpr ⟨hpw1, hpw2, ?_⟩
          intro g hg g2 hg2
          have := hbnd1 g hg
          have := hbnd2 g2 hg2
          omega

/-- The per-distribution loop consumes strictly increasing fresh
identifiers. -/
theorem buildFetchersForDistros_ok_uids {basepath : String}
    {dss : List (String × DistroSource)} {uid : Nat} {fs : List ImageFetcher} {uid1 : Nat}
    (h : buildFetchersForDistros basepath dss uid = .ok (fs, uid1)) :
    uid ≤ uid1 ∧
    (∀ f ∈ fs, uid ≤ f.base.ImageBasePath.uid ∧ f.base.ImageBasePath.uid < uid1) ∧
    fs.Pairwise (fun f g => f.base.ImageBasePath.uid < g.base.ImageBasePath.uid) := by
  induction dss generalizing uid fs uid1 with
  | nil =>
    simp [buildFetchersForDistros] at h
    obtain ⟨hf, hu⟩ := h
    subst hf
    subst hu
    exact ⟨Nat.le_refl _, by simp, List.Pairwise.nil⟩
  | cons head rest ih =>
    obtain ⟨dn, dc⟩ := head
    cases ha : buildFetchersForReleases dn basepath dc.Releases uid with
    | error e => simp [buildFetchersForDistros, ha] at h
    | ok p =>
      obtain ⟨fs1, uida⟩ := p
      cases hb : buildFetchersForDistros basepath rest uida with
      | error e => simp [buildFetchersForDistros, ha, hb] at h
      | ok q =>
        obtain ⟨fs2, uidb⟩ := q
        simp [buildFetchersForDistros, ha, hb] at h
        obtain ⟨hfs, hu⟩ := h
        subst hfs
        obtain ⟨hle1, hbnd1, hpw1⟩ := buildFetchersForReleases_ok_uids ha
        obtain ⟨hle2, hbnd2, hpw2⟩ := ih hb
        refine ⟨by omega, ?_, ?_⟩
        · intro g hg
          rcases List.mem_append.mp hg with hg | hg
          · have := hbnd1 g hg
            omega
          · have := hbnd2 g hg
            omega
        · refine List.pairwise_append.mpr ⟨hpw1, hpw2, ?_⟩
          intro g hg g2 hg2
          have := hbnd1 g hg
          have := hbnd2 g2 hg2
          omega

/-- C9: every pair of distinct fetchers constructed by the handler has
distinct temporary directories — each constructor draws a fresh directory
from the TempDir supply under the shared base path — so concurrently
running downloads never write into the same directory. -/
theorem fetcher_tmpdirs_pairwise_distinct (config : ImageSource) (uid : Nat)
    (fetchers : List ImageFetcher) (uid1 : Nat)
    (h : NewImageFetcherHandler config uid = .ok (fetchers, uid1)) :
    fetchers.Pairwise (fun f g => f.base.ImageBasePath ≠ g.base.ImageBasePath) := by
  have h2 : buildFetchersForDistros (TmpDir.path ⟨"", "images", uid⟩)
      config.DistroSources (uid + 1) = .ok (fetchers, uid1) := by
    simpa [NewImageFetcherHandler, TempDir] using h
  obtain ⟨-, -, hpw⟩ := buildFetchersForDistros_ok_uids h2
  exact hpw.imp fun hlt heq => absurd (congrArg TmpDir.uid heq) (Nat.ne_of_lt hlt)

/-- C9 witness at a configuration with two architectures of one release. -/
theorem fetcher_tmpdirs_pairwise_distinct_witness :
    NewImageFetcherHandler ⟨[("ubuntu", ⟨[("xenial", ⟨["amd64", "arm64"]⟩)]⟩)]⟩ 0 =
      .ok ([ImageFetcher.ubuntu ⟨⟨"/images0", "ubuntu", 1⟩, "ubuntu", "xenial", "amd64"⟩,
            ImageFetcher.ubuntu ⟨⟨"/images0", "ubuntu", 2⟩, "ubuntu", "xenial", "arm64"⟩], 3) ∧
    List.Pairwise (fun f g => f.base.ImageBasePath ≠ g.base.ImageBasePath)
      [ImageFetcher.ubuntu ⟨⟨"/images0", "ubuntu", 1⟩, "ubuntu", "xenial", "amd64"⟩,
       ImageFetcher.ubuntu ⟨⟨"/images0", "ubuntu", 2⟩, "ubuntu", "xenial", "arm64"⟩] :=
  ⟨rfl, fetcher_tmpdirs_pairwise_distinct
    ⟨[("ubuntu", ⟨[("xenial", ⟨["amd64", "arm64"]⟩)]⟩)]⟩ 0
    [ImageFetcher.ubuntu ⟨⟨"/images0", "ubuntu", 1⟩, "ubuntu", "xenial", "amd64"⟩,
     ImageFetcher.ubuntu ⟨⟨"/images0", "ubuntu", 2⟩, "ubuntu", "xenial", "arm64"⟩] 3 rfl⟩

/-- Decomposing a one-element extension of a trace: a marked occurrence in
the extended trace lies either inside the old trace or is the appended
event itself. -/
theorem append_singleton_decomp {α : Type} {l l1 l2 : List α} {x e : α}
    (h : l ++ [e] = l1 ++ x :: l2) :
    (∃ l3, l = l1 ++ x :: l3 ∧ l2 = l3 ++ [e]) ∨ (l1 = l ∧ x = e ∧ l2 = []) := by
  rcases List.append_eq_append_iff.mp h with ⟨a, ha1, ha2⟩ | ⟨c, hc1, hc2⟩
  · cases a with
    | nil =>
      injection ha2 with h3 h4
      right
      exact ⟨by simpa using ha1, h3.symm, h4.symm⟩
    | cons y ys =>
      injection ha2 with h3 h4
      exact absurd h4.symm (by simp)
  · cases c with
    | nil =>
      injection hc2 with h3 h4
      right
      exact ⟨by simpa using hc1.symm, h3, h4⟩
    | cons y ys =>
      injection hc2 with h3 h4
      left
      subst h3
      exact ⟨ys, hc1, h4⟩

/-- Appending an event that is neither a task start nor a sleep preserves
the batch-join ordering of a trace. -/
theorem traceOrdered_append_other {l : List FetchEvent} (h : TraceOrdered l)
    {e : FetchEvent} (hs : ∀ b i, e ≠ FetchEvent.start b i)
    (hsl : ∀ b, e ≠ FetchEvent.sleep b) :
    TraceOrdered (l ++ [e]) := by
  constructor
  · intro l1 l2 b j hdec
    rcases append_singleton_decomp hdec with ⟨l3, hl, _⟩ | ⟨_, hx, _⟩
    · obtain ⟨h1, h2⟩ := h.1 l1 l3 b j hl
      refine ⟨?_, h2⟩
      intro i hi
      rcases List.mem_append.mp hi with hi | hi
      · exact h1 i hi
      · simp at hi
        exact absurd hi.symm (hs b i)
    · exact absurd hx.symm (hs (b + 1) j)
  · intro l1 l2 b hdec
    rcases append_singleton_decomp hdec with ⟨l3, hl, _⟩ | ⟨_, hx, _⟩
    · exact h.2 l1 l3 b hl
    · exact absurd hx.symm (hsl b)

/-- Appending the inter-cycle sleep of the current batch preserves ordering
when the join of that batch is already in the trace. -/
theorem traceOrdered_append_sleep {l : List FetchEvent} (h : TraceOrdered l)
    {b : Nat} (hj : FetchEvent.join b ∈ l) :
    TraceOrdered (l ++ [FetchEvent.sleep b]) := by
  constructor
  · intro l1 l2 b1 j hdec
    rcases append_singleton_decomp hdec with ⟨l3, hl, _⟩ | ⟨_, hx, _⟩
    · obtain ⟨h1, h2⟩ := h.1 l1 l3 b1 j hl
      refine ⟨?_, h2⟩
      intro i hi
      rcases List.mem_append.mp hi with hi | hi
      · exact h1 i hi
      · simp at hi
    · simp at hx
  · intro l1 l2 b1 hdec
    rcases append_singleton_decomp hdec with ⟨l3, hl, _⟩ | ⟨hl1, hx, _⟩
    · exact h.2 l1 l3 b1 hl
    · injection hx with hb
      subst hb
      rw [hl1]
      exact hj

/-- Appending a task start of the current batch preserves ordering when
every strictly earlier batch has slept and all its started tasks have
finished. -/
theorem traceOrdered_append_start {l : List FetchEvent} (h : TraceOrdered l)
    {batch j : Nat}
    (hle : ∀ b i, FetchEvent.start b i ∈ l → b ≤ batch)
    (hsl : ∀ b, b < batch → FetchEvent.sleep b ∈ l)
    (hfin : ∀ b i, b < batch → FetchEvent.start b i ∈ l → FetchEvent.finish b i ∈ l) :
    TraceOrdered (l ++ [FetchEvent.start batch j]) := by
  constructor
  · intro l1 l2 b1 jj hdec
    rcases append_singleton_decomp hdec with ⟨l3, hl, _⟩ | ⟨hl1, hx, _⟩
    · obtain ⟨h1, h2⟩ := h.1 l1 l3 b1 jj hl
      refine ⟨?_, h2⟩
      intro i hi
      rcases List.mem_append.mp hi with hi | hi
      · exact h1 i hi
      · simp at hi
        have hmem : FetchEvent.start (b1 + 1) jj ∈ l := by
          rw [hl]
          exact List.mem_append.mpr (Or.inr (List.mem_cons_self _ _))
        have := hle (b1 + 1) jj hmem
        omega
    · injection hx with hb hjj
      constructor
      · intro i hi
        rw [hl1]
        rcases List.mem_append.mp hi with hi | hi
        · exact hfin b1 i (by omega) hi
        · simp at hi
          omega
      · rw [hl1]
        exact hsl b1 (by omega)
  · intro l1 l2 b1 hdec
    rcases append_singleton_decomp hdec with ⟨l3, hl, _⟩ | ⟨_, hx, _⟩
    · exact h.2 l1 l3 b1 hl
    · simp at hx

/-- The initial orchestrator state satisfies the invariant. -/
theorem orchInv_init : OrchInv OrchInit := by
  unfold OrchInv TraceOrdered OrchInit
  refine ⟨?_, ?_, ?_, ?_, ?_, ?_, ?_, ?_⟩
  · intro p hp
    exact absurd hp (List.not_mem_nil p)
  · intro b i hb
    exact absurd hb (List.not_mem_nil _)
  · intro b hb
    exact absurd hb (Nat.not_lt_zero b)
  · intro b i hb
    exact absurd hb (List.not_mem_nil _)
  · intro _
    rfl
  · intro hpc
    exact absurd hpc (by simp)
  · intro l1 l2 b j hdec
    exact absurd hdec (by simp)
  · intro l1 l2 b hdec
    exact absurd hdec (by simp)

/-- Every orchestrator transition preserves the invariant. -/
theorem orchInv_step {n : Nat → Nat} {s s2 : OrchState} (h : OrchStep n s s2)
    (hs : OrchInv s) : OrchInv s2 := by
  obtain ⟨inv1, inv2, inv3, inv4, inv5, inv6, invT⟩ := hs
  cases h with
  | spawn i hpc hlt =>
    refine ⟨?_, ?_, ?_, ?_, ?_, ?_, ?_⟩
    · intro p hp
      rcases List.mem_cons.mp hp with hp | hp
      · subst hp
        rfl
      · exact inv1 p hp
    · intro b i2 hb
      rcases List.mem_append.mp hb with hb | hb
      · exact inv2 b i2 hb
      · simp at hb
        dsimp only
        omega
    · intro b hb
      exact List.mem_append.mpr (Or.inl (inv3 b hb))
    · intro b i2 hb
      rcases List.mem_append.mp hb with hb | hb
      · rcases inv4 b i2 hb with hrun | hfin
        · exact Or.inl (List.mem_cons_of_mem _ hrun)
        · exact Or.inr (List.mem_append.mpr (Or.inl hfin))
      · simp at hb
        obtain ⟨hb1, hb2⟩ := hb
        subst hb1
        subst hb2
        exact Or.inl (List.mem_cons_self _ _)
    · intro hpc2
      exact absurd hpc2 (by simp)
    · intro hpc2
      exact absurd hpc2 (by simp)
    · refine traceOrdered_append_start invT inv2 inv3 ?_
      intro b i2 hblt hm
      rcases inv4 b i2 hm with hrun | hfin
      · have hb := inv1 _ hrun
        simp at hb
        omega
      · exact hfin
  | abortResolve i hpc hlt =>
    refine ⟨inv1, inv2, inv3, inv4, ?_, ?_, invT⟩
    · intro hpc2
      exact absurd hpc2 (by simp)
    · intro hpc2
      exact absurd hpc2 (by simp)
  | beginWait hpc =>
    refine ⟨inv1, inv2, inv3, inv4, ?_, ?_, invT⟩
    · intro hpc2
      exact absurd hpc2 (by simp)
    · intro hpc2
      exact absurd hpc2 (by simp)
  | taskFinish b t hmem =>
    refine ⟨?_, ?_, ?_, ?_, ?_, ?_, ?_⟩
    · intro p hp
      exact inv1 p (List.mem_of_mem_filter hp)
    · intro b2 i2 hb
      rcases List.mem_append.mp hb with hb | hb
      · exact inv2 b2 i2 hb
      · simp at hb
    · intro b2 hb
      exact List.mem_append.mpr (Or.inl (inv3 b2 hb))
    · intro b2 i2 hb
      rcases List.mem_append.mp hb with hb | hb
      · rcases inv4 b2 i2 hb with hrun | hfin
        · by_cases heq : (b2, i2) = (b, t)
          · refine Or.inr (List.mem_append.mpr (Or.inr ?_))
            simp at heq
            simp [heq]
          · refine Or.inl (List.mem_filter.mpr ⟨hrun, ?_⟩)
            simp [heq]
        · exact Or.inr (List.mem_append.mpr (Or.inl hfin))
      · simp at hb
    · intro hpc2
      rw [inv5 hpc2]
      rfl
    · intro hpc2
      exact List.mem_append.mpr (Or.inl (inv6 hpc2))
    · refine traceOrdered_append_other invT ?_ ?_
      · intro b2 i2
        simp
      · intro b2
        simp
  | batchJoin hpc hrun =>
    refine ⟨?_, ?_, ?_, ?_, ?_, ?_, ?_⟩
    · intro p hp
      exact absurd hp (List.not_mem_nil p)
    · intro b2 i2 hb
      rcases List.mem_append.mp hb with hb | hb
      · exact inv2 b2 i2 hb
      · simp at hb
    · intro b2 hb
      exact List.mem_append.mpr (Or.inl (inv3 b2 hb))
    · intro b2 i2 hb
      rcases List.mem_append.mp hb with hb | hb
      · rcases inv4 b2 i2 hb with hrun2 | hfin
        · rw [hrun] at hrun2
          exact absurd hrun2 (List.not_mem_nil _)
        · exact Or.inr (List.mem_append.mpr (Or.inl hfin))
      · simp at hb
    · intro _
      rfl
    · intro _
      exact List.mem_append.mpr (Or.inr (List.mem_cons_self _ _))
    · refine traceOrdered_append_other invT ?_ ?_
      · intro b2 i2
        simp
      · intro b2
        simp
  | cycleSleep hpc =>
    refine ⟨?_, ?_, ?_, ?_, ?_, ?_, ?_⟩
    · intro p hp
      rw [inv5 hpc] at hp
      exact absurd hp (List.not_mem_nil p)
    · intro b2 i2 hb
      rcases List.mem_append.mp hb with hb | hb
      · have := inv2 b2 i2 hb
        dsimp only
        omega
      · simp at hb
    · intro b2 hb
      rcases Nat.lt_succ_iff_lt_or_eq.mp hb with hb | hb
      · exact List.mem_append.mpr (Or.inl (inv3 b2 hb))
      · subst hb
        exact List.mem_append.mpr (Or.inr (List.mem_cons_self _ _))
    · intro b2 i2 hb
      rcases List.mem_append.mp hb with hb | hb
      · rcases inv4 b2 i2 hb with hrun2 | hfin
        · rw [inv5 hpc] at hrun2
          exact absurd hrun2 (List.not_mem_nil _)
        · exact Or.inr (List.mem_append.mpr (Or.inl hfin))
      · simp at hb
    · intro hpc2
      exact absurd hpc2 (by simp)
    · intro hpc2
      exact absurd hpc2 (by simp)
    · exact traceOrdered_append_sleep invT (inv6 hpc)

/-- Every reachable orchestrator state satisfies the invariant. -/
theorem orchInv_reachable (n : Nat → Nat) {s : OrchState} (h : OrchReachable n s) :
    OrchInv s := by
  unfold OrchReachable at h
  induction h with
  | refl => exact orchInv_init
  | tail hsteps hstep ih => exact orchInv_step hstep ih

/-- C5: in every execution of the orchestrator loop, wherever a fetch task
of batch N+1 starts, every started task of batch N has finished strictly
earlier in the trace and the fixed-interval sleep of batch N also precedes
that start; moreover every sleep of batch N is preceded by the join of
batch N, so the sleep separates the join from the start of the next
batch.  The 30-second duration itself is abstracted into the sleep
event. -/
theorem handle_batch_join_ordering (n : Nat → Nat) (s : OrchState)
    (h : OrchReachable n s) : TraceOrdered s.trace :=
  (orchInv_reachable n h).2.2.2.2.2.2

/-- C5 witness: a concrete five-step execution of one full cycle of a
single-fetcher batch followed by the first start of the next batch. -/
theorem handle_batch_join_ordering_witness :
    OrchReachable (fun _ => 1)
      ⟨1, .spawning 1, [(1, 0)],
        [.start 0 0, .finish 0 0, .join 0, .sleep 0, .start 1 0]⟩ ∧
    TraceOrdered
      [FetchEvent.start 0 0, .finish 0 0, .join 0, .sleep 0, .start 1 0] := by
  have h1 : OrchStep (fun _ => 1) OrchInit ⟨0, .spawning 1, [(0, 0)], [.start 0 0]⟩ :=
    OrchStep.spawn OrchInit 0 rfl (by decide)
  have h2 : OrchStep (fun _ => 1) ⟨0, .spawning 1, [(0, 0)], [.start 0 0]⟩
      ⟨0, .waiting, [(0, 0)], [.start 0 0]⟩ :=
    OrchStep.beginWait _ rfl
  have h3 : OrchStep (fun _ => 1) ⟨0, .waiting, [(0, 0)], [.start 0 0]⟩
      ⟨0, .waiting, [], [.start 0 0, .finish 0 0]⟩ :=
    OrchStep.taskFinish _ 0 0 (List.mem_cons_self _ _)
  have h4 : OrchStep (fun _ => 1) ⟨0, .waiting, [], [.start 0 0, .finish 0 0]⟩
      ⟨0, .sleeping, [], [.start 0 0, .finish 0 0, .join 0]⟩ :=
    OrchStep.batchJoin _ rfl rfl
  have h5 : OrchStep (fun _ => 1) ⟨0, .sleeping, [], [.start 0 0, .finish 0 0, .join 0]⟩
      ⟨1, .spawning 0, [], [.start 0 0, .finish 0 0, .join 0, .sleep 0]⟩ :=
    OrchStep.cycleSleep _ rfl
  have h6 : OrchStep (fun _ => 1)
      ⟨1, .spawning 0, [], [.start 0 0, .finish 0 0, .join 0, .sleep 0]⟩
      ⟨1, .spawning 1, [(1, 0)],
        [.start 0 0, .finish 0 0, .join 0, .sleep 0, .start 1 0]⟩ :=
    OrchStep.spawn _ 0 rfl (by decide)
  have hreach : OrchReachable (fun _ => 1)
      ⟨1, .spawning 1, [(1, 0)],
        [.start 0 0, .finish 0 0, .join 0, .sleep 0, .start 1 0]⟩ :=
    Relation.ReflTransGen.tail (Relation.ReflTransGen.tail (Relation.ReflTransGen.tail
      (Relation.ReflTransGen.tail (Relation.ReflTransGen.tail
        (Relation.ReflTransGen.tail Relation.ReflTransGen.refl h1) h2) h3) h4) h5) h6
  exact ⟨hreach, handle_batch_join_ordering (fun _ => 1) _ hreach⟩

end CloudImageSync
